import Mathlib

/-!
Verification of the `SecretConnection` transport layer of
FindoraNetwork/tendermint-rs (`p2p/src/secret_connection.rs`).

The Rust source is shallowly embedded: byte buffers become `List Nat`
(each element a byte value), fallible operations return `Except`,
slice-index panics and `copy_from_slice` length-mismatch panics become
explicit `panic` error values, and the external cryptographic crates
(x25519-dalek, ed25519-dalek, merlin, hkdf, chacha20poly1305) are either
taken as function parameters or modelled explicitly where a claim needs
their concrete behaviour.
-/

/-! ## Definitions -/

/-- Size of the MAC tag (`TAG_SIZE`). -/
def TAG_SIZE : Nat := 16

/-- Maximum size of a message chunk (`DATA_MAX_SIZE`). -/
def DATA_MAX_SIZE : Nat := 1024

/-- Size of the 4-byte little-endian length field (`DATA_LEN_SIZE`). -/
def DATA_LEN_SIZE : Nat := 4

/-- `TOTAL_FRAME_SIZE = DATA_MAX_SIZE + DATA_LEN_SIZE = 1028`. -/
def TOTAL_FRAME_SIZE : Nat := DATA_MAX_SIZE + DATA_LEN_SIZE

/-- Little-endian encoding of a `u32` value (`u32::to_le_bytes`). -/
def leBytesOfU32 (n : Nat) : List Nat :=
  [n % 256, n / 256 % 256, n / 65536 % 256, n / 16777216 % 256]

/-- Little-endian decoding of 4 bytes into a `u32` (`u32::from_le_bytes`). -/
def u32OfLeBytes (bs : List Nat) : Nat :=
  bs.getD 0 0 % 256 + 256 * (bs.getD 1 0 % 256) + 65536 * (bs.getD 2 0 % 256) +
    16777216 * (bs.getD 3 0 % 256)

/-- Rust `copy_from_slice` / `clone_from_slice`: the destination is
replaced by the source when lengths match, and the call panics (modelled
as `none`) when they differ. -/
def copyFromSlice (dst src : List Nat) : Option (List Nat) :=
  if src.length = dst.length then some src else none

/-- Lexicographic `<` on byte strings, as derived for Rust `[u8; 32]`
(both sides always have equal length 32 where it is used). -/
def bytesLt : List Nat → List Nat → Bool
  | [], [] => false
  | [], _ :: _ => true
  | _ :: _, [] => false
  | a :: as_, b :: bs => a < b || (a == b && bytesLt as_ bs)

/-- `sort32` (secret_connection.rs lines 432-438): returns `(lo, hi)`;
`if second > first { (first, second) } else { (second, first) }`. -/
def sort32 (first second : List Nat) : List Nat × List Nat :=
  if bytesLt first second then (first, second) else (second, first)

/-- Error kinds.  The repository's `Error` enum lives in
`p2p/src/error.rs`, which is not among the provided sources; the
variants `InvalidKey` and `CryptoError` appear literally in
`secret_connection.rs`, and the remaining kinds are modelled from the
spec (sec. 7): `ProtocolMisuse` is the kind of the "forgot to call
Handshake::new?" error returned by a second `got_key` call,
`FramingError` the oversize-chunk error, and `TransportError` an error
propagated from the underlying byte stream.  `panic` is not an error
kind of the program: it marks executions on which the Rust code panics
(slice indexing out of range or `copy_from_slice` length mismatch), and
`fuelOut` marks exhaustion of a recursion bound, unreachable with the
bounds used below. -/
inductive SCError where
  | invalidKey : SCError
  | cryptoError : SCError
  | protocolMisuse : SCError
  | framingError : SCError
  | transportError : SCError
  | panic : SCError
  | fuelOut : SCError
  deriving DecidableEq, Repr

instance {ε α : Type} [DecidableEq ε] [DecidableEq α] : DecidableEq (Except ε α) := fun a b =>
  match a, b with
  | .ok x, .ok y =>
    if h : x = y then .isTrue (by rw [h]) else .isFalse (fun hh => h (Except.ok.inj hh))
  | .ok _, .error _ => .isFalse (fun hh => Except.noConfusion hh)
  | .error _, .ok _ => .isFalse (fun hh => Except.noConfusion hh)
  | .error x, .error y =>
    if h : x = y then .isTrue (by rw [h]) else .isFalse (fun hh => h (Except.error.inj hh))

/-- Result of a `write` call: the `io::Result<usize>` value, the final
`send_nonce` counter, and the list of chunks whose sealed frames were
successfully written to the transport (in order). -/
structure WriteOut where
  res : Except SCError Nat
  sendNonce : Nat
  frames : List (List Nat)
  deriving DecidableEq, Repr

/-- The loop of `SecretConnection::write`, embedded faithfully,
including its use of `data` (the original buffer) rather than
`data_copy` when selecting a chunk:

```text
while !data_copy.is_empty() {
    if DATA_MAX_SIZE < data.len() {
        chunk = &data[..DATA_MAX_SIZE];          // always the first 1024 bytes
        data_copy = &data_copy[DATA_MAX_SIZE..]; // panics if data_copy < 1024
    } else { chunk = data_copy; data_copy = &[]; }
    encrypt(chunk);                              // seals one frame
    send_nonce.increment();
    io_handler.write_all(&sealed_frame)?;        // may fail
    n += chunk.len();
}
```

`writeOk i` tells whether the `i`-th `write_all` call (counting from 0)
succeeds; encryption itself is total (ChaCha20-Poly1305 sealing of a
fixed 1028-byte buffer does not fail).  The fuel argument only bounds
the recursion and is never exhausted when called with
`data.length + 1`. -/
def writeAux (writeOk : Nat → Bool) (data : List Nat) :
    Nat → List Nat → Nat → Nat → Nat → WriteOut
  | 0, _, _, nonce, _ => ⟨.error .fuelOut, nonce, []⟩
  | fuel + 1, dataCopy, n, nonce, callIdx =>
    if dataCopy.isEmpty then ⟨.ok n, nonce, []⟩
    else
      if DATA_MAX_SIZE < data.length then
        if dataCopy.length < DATA_MAX_SIZE then
          -- `&data_copy[DATA_MAX_SIZE..]` panics: index out of range
          ⟨.error .panic, nonce, []⟩
        else
          let chunk := data.take DATA_MAX_SIZE
          let nonce' := nonce + 1
          if writeOk callIdx then
            let rest := writeAux writeOk data fuel (dataCopy.drop DATA_MAX_SIZE)
              (n + chunk.length) nonce' (callIdx + 1)
            ⟨rest.res, rest.sendNonce, chunk :: rest.frames⟩
          else ⟨.error .transportError, nonce', []⟩
      else
        let chunk := dataCopy
        let nonce' := nonce + 1
        if writeOk callIdx then
          let rest := writeAux writeOk data fuel [] (n + chunk.length) nonce' (callIdx + 1)
          ⟨rest.res, rest.sendNonce, chunk :: rest.frames⟩
        else ⟨.error .transportError, nonce', []⟩

/-- `SecretConnection::write` on a connection whose `send_nonce` counter
is `nonce0`, over a transport whose `i`-th `write_all` call succeeds iff
`writeOk i`. -/
def secretWrite (writeOk : Nat → Bool) (data : List Nat) (nonce0 : Nat) : WriteOut :=
  writeAux writeOk data (data.length + 1) data 0 nonce0 0

/-- The receive-side state of a `SecretConnection`: the leftover buffer
`recv_buffer` and the `recv_nonce` counter. -/
structure RecvState where
  recvBuffer : List Nat
  recvNonce : Nat
  deriving DecidableEq, Repr

/-- Result of a `read` call: the `io::Result<usize>` value, the caller's
buffer after the call (`data` is a `&mut [u8]` in Rust), the new receive
state, and the bytes left unconsumed on the transport. -/
structure ReadOut where
  res : Except SCError Nat
  data : List Nat
  st : RecvState
  wire : List Nat
  deriving DecidableEq, Repr

/-- `SecretConnection::read`, embedded faithfully.  `decryptFn nonce
sealed` abstracts AEAD opening of the 1044-byte sealed frame under the
current `recv_nonce` with the connection's `recv_cipher` (the external
chacha20poly1305 crate): `none` is a decryption failure, `some frame`
the decrypted 1028-byte framed payload.  `wire` is the incoming byte
stream; `read_exact` consumes exactly 1044 bytes from it or fails.

```text
if !recv_buffer.is_empty() {
    n = min(data.len(), recv_buffer.len());
    data.copy_from_slice(&recv_buffer[..n]);      // panics if data.len() != n
    recv_buffer = recv_buffer[n..].to_owned();
    return Ok(n);
}
read_exact(&mut sealed_frame)?;                   // 1044 bytes
frame = decrypt(sealed_frame)?;                   // error: return, nonce untouched
recv_nonce.increment();
chunk_length = u32::from_le_bytes(frame[..4]);
if chunk_length > DATA_MAX_SIZE { return Err(framing); }
chunk = frame[4..4 + chunk_length];
n = min(data.len(), chunk.len());
data[..n].copy_from_slice(&chunk[..n]);
recv_buffer.copy_from_slice(&chunk[n..]);         // panics if chunk.len() != n
Ok(n)
```
-/
def secretRead (decryptFn : Nat → List Nat → Option (List Nat))
    (st : RecvState) (wire data : List Nat) : ReadOut :=
  if st.recvBuffer.isEmpty then
    if wire.length < TAG_SIZE + TOTAL_FRAME_SIZE then
      -- `read_exact` fails: not enough bytes on the transport
      ⟨.error .transportError, data, st, wire⟩
    else
      let sealedFrame := wire.take (TAG_SIZE + TOTAL_FRAME_SIZE)
      let wire' := wire.drop (TAG_SIZE + TOTAL_FRAME_SIZE)
      match decryptFn st.recvNonce sealedFrame with
      | none => ⟨.error .cryptoError, data, st, wire'⟩
      | some frame =>
        let st1 : RecvState := ⟨st.recvBuffer, st.recvNonce + 1⟩
        let chunkLength := u32OfLeBytes (frame.take DATA_LEN_SIZE)
        if DATA_MAX_SIZE < chunkLength then
          ⟨.error .framingError, data, st1, wire'⟩
        else
          let chunk := (frame.drop DATA_LEN_SIZE).take chunkLength
          let n := min data.length chunk.length
          let data' := chunk.take n ++ data.drop n
          match copyFromSlice st1.recvBuffer (chunk.drop n) with
          | none => ⟨.error .panic, data', st1, wire'⟩
          | some buf' => ⟨.ok n, data', ⟨buf', st1.recvNonce⟩, wire'⟩
  else
    let n := min data.length st.recvBuffer.length
    match copyFromSlice data (st.recvBuffer.take n) with
    | none => ⟨.error .panic, data, st, wire⟩
    | some data' =>
      ⟨.ok n, data', ⟨st.recvBuffer.drop n, st.recvNonce⟩, wire⟩

/-- Output of `Kdf::derive_secrets_and_challenge`.  Modelled from the
spec: the `Kdf` module (`p2p/src/secret_connection/kdf.rs`) is not among
the provided sources; per spec sec. 4.2 it derives 96 bytes, partitioned
into a receive secret, a send secret and a challenge, with the role bit
choosing the send/recv assignment.  The derivation itself is passed as a
function parameter `kdfFn` where needed. -/
structure KdfM where
  recvSecret : List Nat
  sendSecret : List Nat
  challenge : List Nat
  deriving DecidableEq, Repr

/-- `AwaitingEphKey` handshake state (lines 55-58): the long-term
ed25519 keypair (opaque bytes here) and the X25519 ephemeral secret,
which `got_key` consumes via `Option::take`. -/
structure AwaitingEphKey where
  localPrivkey : List Nat
  localEphPrivkey : Option (List Nat)
  deriving DecidableEq, Repr

/-- `AwaitingAuthSig` handshake state (lines 61-67).  The two ChaCha20
ciphers are represented by their keys, which determine them. -/
structure AwaitingAuthSig where
  scMac : List Nat
  kdf : KdfM
  recvCipherKey : List Nat
  sendCipherKey : List Nat
  localSignature : List Nat
  deriving DecidableEq, Repr

/-- `loc_is_least` (lines 120-130): the local and remote ephemeral
public keys are sorted with `sort32` and the role bit is the *byte
equality* of the local key with the low element of the sorted pair. -/
def locIsLeast (localEphPubkey remoteEphPubkey : List Nat) : Bool :=
  localEphPubkey == (sort32 localEphPubkey remoteEphPubkey).1

/-- `Handshake::<AwaitingEphKey>::got_key` (lines 93-155).  The
external crates are parameters: `dhFn` is x25519-dalek's Diffie-Hellman,
`pubFromPriv` derives the local ephemeral public key
(`EphemeralPublic::from`), `transcriptFn` is the merlin transcript
producing `sc_mac` from the `(low, high, shared)` triple (spec sec. 4.6
requires `sc_mac` to be a function of exactly that triple), `kdfFn` the
KDF, and `signFn` ed25519 signing (`none` = signing error, mapped to
`CryptoError`).  Returns the `Result` together with the mutated `self`
state; the misuse branch is the `None =>` arm of `take()`, whose error
kind is `ProtocolMisuse` per spec sec. 7. -/
def gotKey (dhFn : List Nat → List Nat → List Nat)
    (pubFromPriv : List Nat → List Nat)
    (transcriptFn : List Nat → List Nat → List Nat → List Nat)
    (kdfFn : List Nat → Bool → KdfM)
    (signFn : List Nat → List Nat → Option (List Nat))
    (hasTranscript : Bool)
    (st : AwaitingEphKey) (remoteEphPubkey : List Nat) :
    Except SCError AwaitingAuthSig × AwaitingEphKey :=
  match st.localEphPrivkey with
  | none => (.error .protocolMisuse, st)
  | some localEphPrivkey =>
    let st' : AwaitingEphKey := { st with localEphPrivkey := none }
    let localEphPubkey := pubFromPriv localEphPrivkey
    let sharedSecret := dhFn localEphPrivkey remoteEphPubkey
    if sharedSecret == List.replicate 32 0 then
      (.error .invalidKey, st')
    else
      let sorted := sort32 localEphPubkey remoteEphPubkey
      let locLeast := locIsLeast localEphPubkey remoteEphPubkey
      let kdf := kdfFn sharedSecret locLeast
      let scMac := transcriptFn sorted.1 sorted.2 sharedSecret
      match signFn st.localPrivkey (if hasTranscript then scMac else kdf.challenge) with
      | none => (.error .cryptoError, st')
      | some localSignature =>
        (.ok ⟨scMac, kdf, kdf.recvSecret, kdf.sendSecret, localSignature⟩, st')

/-- Protobuf `public_key::Sum` of the external tendermint-proto crate:
an Ed25519 or Secp256k1 public key as raw bytes. -/
inductive PKSum where
  | ed25519 (bytes : List Nat)
  | secp256k1 (bytes : List Nat)
  deriving DecidableEq, Repr

/-- Protobuf `PublicKey` message: an optional sum. -/
structure ProtoPublicKey where
  sum : Option PKSum
  deriving DecidableEq, Repr

/-- `proto::p2p::AuthSigMessage`: optional public key and signature
bytes. -/
structure AuthSigMessage where
  pub_key : Option ProtoPublicKey
  sig : List Nat
  deriving DecidableEq, Repr

/-- `Handshake::<AwaitingAuthSig>::got_signature` (lines 160-186).
External ed25519-dalek operations are parameters: `pkFromBytes` is
`PublicKey::from_bytes` (`none` = malformed key), `sigFromBytes` is
`Signature::try_from` (`none` = malformed signature bytes, e.g. a length
other than 64), and `verifyFn pk msg sig` is signature verification.
The challenge input is `sc_mac` when the protocol version has a
transcript and `kdf.challenge` otherwise. -/
def gotSignature (pkFromBytes : List Nat → Option (List Nat))
    (sigFromBytes : List Nat → Option (List Nat))
    (verifyFn : List Nat → List Nat → List Nat → Bool)
    (hasTranscript : Bool)
    (st : AwaitingAuthSig) (authSigMsg : AuthSigMessage) : Except SCError (List Nat) :=
  match authSigMsg.pub_key.bind (fun pk =>
      pk.sum.bind (fun s =>
        match s with
        | .ed25519 bytes => pkFromBytes bytes
        | .secp256k1 _ => none)) with
  | none => .error .cryptoError
  | some remotePubkey =>
    match sigFromBytes authSigMsg.sig with
    | none => .error .cryptoError
    | some remoteSig =>
      if hasTranscript then
        if verifyFn remotePubkey st.scMac remoteSig then .ok remotePubkey
        else .error .cryptoError
      else
        if verifyFn remotePubkey st.kdf.challenge remoteSig then .ok remotePubkey
        else .error .cryptoError

/-- The field prime of Curve25519. -/
def p25519 : Nat := 2 ^ 255 - 19

/-- The base field `GF(2^255 - 19)`. -/
abbrev F25519 := ZMod p25519

/-- The ladder constant `(486662 - 2) / 4`. -/
def a24 : F25519 := 121665

/-- State of the Montgomery ladder: two projective points and the
pending conditional-swap bit. -/
structure MontState where
  x2 : F25519
  z2 : F25519
  x3 : F25519
  z3 : F25519
  swap : Bool
  deriving DecidableEq

/-- One step of the RFC 7748 ladder for bit `kt`: conditional swap
driven by `swap XOR kt`, then the differential addition-and-doubling
formulas. -/
def ladderStep (x1 : F25519) (kt : Bool) (s : MontState) : MontState :=
  let doswap := s.swap != kt
  let x2 := if doswap then s.x3 else s.x2
  let x3 := if doswap then s.x2 else s.x3
  let z2 := if doswap then s.z3 else s.z2
  let z3 := if doswap then s.z2 else s.z3
  let A := x2 + z2
  let AA := A * A
  let B := x2 - z2
  let BB := B * B
  let E := AA - BB
  let C := x3 + z3
  let D := x3 - z3
  let DA := D * A
  let CB := C * B
  ⟨AA * BB, E * (AA + a24 * E), (DA + CB) * (DA + CB), x1 * ((DA - CB) * (DA - CB)), kt⟩

/-- Binary exponentiation in the field (used for the final inversion
`z2^(p-2)`); the first argument is fuel bounding the recursion depth,
never exhausted for exponents below `2^fuel`. -/
def powAux : Nat → F25519 → Nat → F25519
  | 0, _, _ => 1
  | f + 1, b, e =>
    if e = 0 then 1
    else
      let h := powAux f b (e / 2)
      let h2 := h * h
      if e % 2 = 1 then h2 * b else h2

/-- The full 255-iteration ladder over the bits of the scalar `k`,
starting from `(x2, z2, x3, z3) = (1, 0, u, 1)`. -/
def montLadder (k u : Nat) : MontState :=
  (List.range 255).reverse.foldl (fun s t => ladderStep (u : F25519) (k.testBit t) s)
    ⟨1, 0, (u : F25519), 1, false⟩

/-- X25519 on decoded field elements: run the ladder, perform the
final conditional swap, and return `x2 * z2^(p-2)` canonically. -/
def x25519core (k u : Nat) : Nat :=
  let s := montLadder k u
  let x2 := if s.swap then s.x3 else s.x2
  let z2 := if s.swap then s.z3 else s.z2
  (x2 * powAux 256 z2 (p25519 - 2)).val

/-- Little-endian byte decoding. -/
def leBytesToNat : List Nat → Nat
  | [] => 0
  | b :: bs => b % 256 + 256 * leBytesToNat bs

/-- RFC 7748 scalar clamping: clear bits 0-2 and 255, set bit 254. -/
def clampScalar (n : Nat) : Nat := n % 2 ^ 255 / 8 * 8 % 2 ^ 254 + 2 ^ 254

/-- u-coordinate decoding: mask the top bit of the 32-byte string. -/
def decodeUCoordinate (bs : List Nat) : Nat := leBytesToNat bs % 2 ^ 255

/-- 32-byte little-endian encoding. -/
def natToLeBytes32 (n : Nat) : List Nat := (List.range 32).map (fun i => n / 2 ^ (8 * i) % 256)

/-- The byte-level X25519 function of x25519-dalek. -/
def x25519 (kBytes uBytes : List Nat) : List Nat :=
  natToLeBytes32 (x25519core (clampScalar (leBytesToNat kBytes)) (decodeUCoordinate uBytes))

/-! ## Theorems -/

/-- Loop iteration with an empty `data_copy`: the loop exits returning `n`. -/
theorem writeAux_step_done (writeOk : Nat → Bool) (data dc : List Nat)
    (fuel n nonce c : Nat) (h1 : dc.isEmpty = true) :
    writeAux writeOk data (fuel + 1) dc n nonce c = ⟨.ok n, nonce, []⟩ := by
  simp only [writeAux, h1, if_true]

/-- Loop iteration that panics: `data.len() > 1024` but `data_copy` has
fewer than 1024 bytes left, so `&data_copy[DATA_MAX_SIZE..]` is out of
range. -/
theorem writeAux_step_panic (writeOk : Nat → Bool) (data dc : List Nat)
    (fuel n nonce c : Nat) (h1 : dc.isEmpty = false) (h2 : DATA_MAX_SIZE < data.length)
    (h3 : dc.length < DATA_MAX_SIZE) :
    writeAux writeOk data (fuel + 1) dc n nonce c = ⟨.error .panic, nonce, []⟩ := by
  simp only [writeAux, h1, h2, h3, Bool.false_eq_true, if_false, if_pos]

/-- Loop iteration on a large buffer whose transport write succeeds:
the chunk sent is always `data.take DATA_MAX_SIZE`, the first 1024 bytes
of the original buffer. -/
theorem writeAux_step_send (writeOk : Nat → Bool) (data dc : List Nat)
    (fuel n nonce c : Nat) (h1 : dc.isEmpty = false) (h2 : DATA_MAX_SIZE < data.length)
    (h3 : ¬ dc.length < DATA_MAX_SIZE) (h4 : writeOk c = true) :
    writeAux writeOk data (fuel + 1) dc n nonce c =
      ⟨(writeAux writeOk data fuel (dc.drop DATA_MAX_SIZE)
          (n + (data.take DATA_MAX_SIZE).length) (nonce + 1) (c + 1)).res,
       (writeAux writeOk data fuel (dc.drop DATA_MAX_SIZE)
          (n + (data.take DATA_MAX_SIZE).length) (nonce + 1) (c + 1)).sendNonce,
       data.take DATA_MAX_SIZE ::
         (writeAux writeOk data fuel (dc.drop DATA_MAX_SIZE)
            (n + (data.take DATA_MAX_SIZE).length) (nonce + 1) (c + 1)).frames⟩ := by
  simp only [writeAux, h1, h2, h3, h4, Bool.false_eq_true, if_false, if_pos, if_true]

/-- Loop iteration on a large buffer whose transport write fails: the
nonce was already incremented before the failing `write_all`. -/
theorem writeAux_step_send_fail (writeOk : Nat → Bool) (data dc : List Nat)
    (fuel n nonce c : Nat) (h1 : dc.isEmpty = false) (h2 : DATA_MAX_SIZE < data.length)
    (h3 : ¬ dc.length < DATA_MAX_SIZE) (h4 : writeOk c = false) :
    writeAux writeOk data (fuel + 1) dc n nonce c = ⟨.error .transportError, nonce + 1, []⟩ := by
  simp only [writeAux, h1, h2, h3, h4, Bool.false_eq_true, if_false, if_pos]

/-- Loop iteration on a small (`≤ 1024` byte) buffer, transport write
succeeding. -/
theorem writeAux_step_small (writeOk : Nat → Bool) (data dc : List Nat)
    (fuel n nonce c : Nat) (h1 : dc.isEmpty = false) (h2 : ¬ DATA_MAX_SIZE < data.length)
    (h4 : writeOk c = true) :
    writeAux writeOk data (fuel + 1) dc n nonce c =
      ⟨(writeAux writeOk data fuel [] (n + dc.length) (nonce + 1) (c + 1)).res,
       (writeAux writeOk data fuel [] (n + dc.length) (nonce + 1) (c + 1)).sendNonce,
       dc :: (writeAux writeOk data fuel [] (n + dc.length) (nonce + 1) (c + 1)).frames⟩ := by
  simp only [writeAux, h1, h2, h4, Bool.false_eq_true, if_false, if_pos, if_true]

/-- Loop iteration on a small buffer, transport write failing. -/
theorem writeAux_step_small_fail (writeOk : Nat → Bool) (data dc : List Nat)
    (fuel n nonce c : Nat) (h1 : dc.isEmpty = false) (h2 : ¬ DATA_MAX_SIZE < data.length)
    (h4 : writeOk c = false) :
    writeAux writeOk data (fuel + 1) dc n nonce c = ⟨.error .transportError, nonce + 1, []⟩ := by
  simp only [writeAux, h1, h2, h4, Bool.false_eq_true, if_false, if_pos]

/-- Invariant of the write loop: whenever the loop terminates with a
transport error, the final `send_nonce` exceeds the entry nonce by one
more than the number of frames successfully written, because the nonce
is incremented after sealing but before the `write_all` call. -/
theorem writeAux_transport_nonce (writeOk : Nat → Bool) (data : List Nat) :
    ∀ fuel dc n nonce c,
      (writeAux writeOk data fuel dc n nonce c).res = .error .transportError →
      (writeAux writeOk data fuel dc n nonce c).sendNonce
        = nonce + (writeAux writeOk data fuel dc n nonce c).frames.length + 1 := by
  intro fuel
  induction fuel with
  | zero =>
    intro dc n nonce c h
    simp [writeAux] at h
  | succ fuel ih =>
    intro dc n nonce c h
    by_cases h1 : dc.isEmpty
    · rw [writeAux_step_done _ _ _ _ _ _ _ h1] at h
      simp at h
    · have h1' : dc.isEmpty = false := by rwa [Bool.not_eq_true] at h1
      by_cases h2 : DATA_MAX_SIZE < data.length
      · by_cases h3 : dc.length < DATA_MAX_SIZE
        · rw [writeAux_step_panic _ _ _ _ _ _ _ h1' h2 h3] at h
          simp at h
        · by_cases h4 : writeOk c
          · rw [writeAux_step_send _ _ _ _ _ _ _ h1' h2 h3 h4] at h ⊢
            have hrec := ih (dc.drop DATA_MAX_SIZE)
              (n + (data.take DATA_MAX_SIZE).length) (nonce + 1) (c + 1) h
            simp only [List.length_cons]
            omega
          · have h4' : writeOk c = false := by rwa [Bool.not_eq_true] at h4
            rw [writeAux_step_send_fail _ _ _ _ _ _ _ h1' h2 h3 h4'] at h ⊢
            simp
      · by_cases h4 : writeOk c
        · rw [writeAux_step_small _ _ _ _ _ _ _ h1' h2 h4] at h ⊢
          have hrec := ih [] (n + dc.length) (nonce + 1) (c + 1) h
          simp only [List.length_cons]
          omega
        · have h4' : writeOk c = false := by rwa [Bool.not_eq_true] at h4
          rw [writeAux_step_small_fail _ _ _ _ _ _ _ h1' h2 h4'] at h ⊢
          simp

/-- C10: in `SecretConnection::write`, for every chunk, `send_nonce` is
incremented after sealing the frame but before the frame bytes are
written to the transport; hence if the transport write of frame `k`
fails (`k` frames were written successfully before), `write` returns an
error with `send_nonce` already advanced to `nonce0 + k + 1`, and the
byte counts of the first `k` chunks are not reported to the caller (the
result is an error, not a partial count). -/
theorem C10_nonce_incremented_before_transport_write (writeOk : Nat → Bool) (data : List Nat) (nonce0 : Nat)
    (h : (secretWrite writeOk data nonce0).res = .error .transportError) :
    (secretWrite writeOk data nonce0).sendNonce
      = nonce0 + (secretWrite writeOk data nonce0).frames.length + 1 :=
  writeAux_transport_nonce writeOk data (data.length + 1) data 0 nonce0 0 h

/-- Witness for C10: a single-chunk write whose transport write fails
leaves `send_nonce` at `5 + 0 + 1`. -/
theorem C10_nonce_before_write_witness :
    (secretWrite (fun _ => false) [3] 5).res = .error .transportError ∧
    (secretWrite (fun _ => false) [3] 5).sendNonce
      = 5 + (secretWrite (fun _ => false) [3] 5).frames.length + 1 :=
  ⟨by decide, C10_nonce_incremented_before_transport_write (fun _ => false) [3] 5 (by decide)⟩

/-- C1 (the claim is FALSE of the code: `write` chunks from the original
`data` instead of `data_copy`): on a 3000-byte buffer the code seals the
first 1024 bytes twice and then panics (`&data_copy[1024..]` with 952
bytes left), instead of emitting disjoint frames of 1024, 1024 and 952
bytes and returning 3000; on a 2048-byte buffer it "succeeds" but sends
the first half twice, so the emitted chunks are neither disjoint nor
exhaustive. -/
theorem C1_write_chunking_bug :
    (secretWrite (fun _ => true) (List.replicate 3000 1) 0).res = .error .panic
    ∧ (secretWrite (fun _ => true) (List.replicate 3000 1) 0).frames
        = [List.replicate 1024 1, List.replicate 1024 1]
    ∧ (secretWrite (fun _ => true) (List.replicate 1024 1 ++ List.replicate 1024 2) 0).res
        = .ok 2048
    ∧ (secretWrite (fun _ => true) (List.replicate 1024 1 ++ List.replicate 1024 2) 0).frames
        = [List.replicate 1024 1, List.replicate 1024 1]
    ∧ List.replicate 1024 (1:Nat) ≠ List.replicate 1024 2 := by
  have hne : ∀ k : Nat, (List.replicate (k+1) (1:Nat)).isEmpty = false := by
    intro k; rw [List.replicate_succ, List.isEmpty_cons]
  have hlen : ∀ k, (List.replicate k (1:Nat)).length = k := fun k => List.length_replicate k 1
  have hA : writeAux (fun _ => true) (List.replicate 3000 1) (2998+1)
      (List.replicate 952 1) 2048 2 2 = ⟨.error .panic, 2, []⟩ :=
    writeAux_step_panic _ _ _ _ _ _ _ (hne 951)
      (by rw [hlen]; norm_num [DATA_MAX_SIZE]) (by rw [hlen]; norm_num [DATA_MAX_SIZE])
  have hB : writeAux (fun _ => true) (List.replicate 3000 1) (2998+1+1)
      (List.replicate 1976 1) 1024 1 1 = ⟨.error .panic, 2, [List.replicate 1024 1]⟩ := by
    rw [writeAux_step_send _ _ _ _ _ _ _ (hne 1975)
      (by rw [hlen]; norm_num [DATA_MAX_SIZE]) (by rw [hlen]; norm_num [DATA_MAX_SIZE]) rfl]
    simp only [DATA_MAX_SIZE, List.take_replicate, List.drop_replicate, List.length_replicate,
      show (1024 ⊓ 3000 : Nat) = 1024 from by norm_num,
      show (3000 - 1024 : Nat) = 1976 from rfl,
      show (1976 - 1024 : Nat) = 952 from rfl,
      show (1024 + 1024 : Nat) = 2048 from rfl,
      show (1 + 1 : Nat) = 2 from rfl]
    rw [hA]
  have hrun3000 : secretWrite (fun _ => true) (List.replicate 3000 1) 0
      = ⟨.error .panic, 2, [List.replicate 1024 1, List.replicate 1024 1]⟩ := by
    rw [secretWrite, show (List.replicate 3000 (1:Nat)).length + 1 = 2998 + 1 + 1 + 1 by rw [hlen]]
    rw [writeAux_step_send _ _ _ _ _ _ _ (hne 2999)
        (by rw [hlen]; norm_num [DATA_MAX_SIZE]) (by rw [hlen]; norm_num [DATA_MAX_SIZE]) rfl]
    simp only [DATA_MAX_SIZE, List.take_replicate, List.drop_replicate, List.length_replicate,
      show (1024 ⊓ 3000 : Nat) = 1024 from by norm_num,
      show (3000 - 1024 : Nat) = 1976 from rfl,
      show (0 + 1024 : Nat) = 1024 from rfl,
      show (0 + 1 : Nat) = 1 from rfl]
    rw [hB]
  have hd2 : (List.replicate 1024 (1:Nat) ++ List.replicate 1024 2).length = 2048 := by
    rw [List.length_append, List.length_replicate, List.length_replicate]
  have hd2ne : (List.replicate 1024 (1:Nat) ++ List.replicate 1024 2).isEmpty = false := by
    rw [List.replicate_succ, List.cons_append, List.isEmpty_cons]
  have htake : (List.replicate 1024 (1:Nat) ++ List.replicate 1024 2).take 1024
      = List.replicate 1024 1 := List.take_left' (by rw [List.length_replicate])
  have hdrop : (List.replicate 1024 (1:Nat) ++ List.replicate 1024 2).drop 1024
      = List.replicate 1024 2 := List.drop_left' (by rw [List.length_replicate])
  have hC : writeAux (fun _ => true) (List.replicate 1024 1 ++ List.replicate 1024 2)
      (2046+1) [] 2048 2 2 = ⟨.ok 2048, 2, []⟩ := writeAux_step_done _ _ _ _ _ _ _ rfl
  have hD : writeAux (fun _ => true) (List.replicate 1024 1 ++ List.replicate 1024 2)
      (2046+1+1) (List.replicate 1024 2) 1024 1 1
      = ⟨.ok 2048, 2, [List.replicate 1024 1]⟩ := by
    rw [writeAux_step_send _ _ _ _ _ _ _
      (by rw [List.replicate_succ, List.isEmpty_cons]) (by rw [hd2]; norm_num [DATA_MAX_SIZE])
      (by rw [List.length_replicate]; norm_num [DATA_MAX_SIZE]) rfl]
    simp only [DATA_MAX_SIZE, htake, List.drop_replicate, List.length_replicate,
      show (1024 - 1024 : Nat) = 0 from rfl,
      show (1024 + 1024 : Nat) = 2048 from rfl,
      show (1 + 1 : Nat) = 2 from rfl, List.replicate_zero]
    rw [hC]
  have hrun2048 : secretWrite (fun _ => true) (List.replicate 1024 1 ++ List.replicate 1024 2) 0
      = ⟨.ok 2048, 2, [List.replicate 1024 1, List.replicate 1024 1]⟩ := by
    have hfuel2 : (List.replicate 1024 (1:Nat) ++ List.replicate 1024 2).length + 1
        = 2046 + 1 + 1 + 1 := by rw [hd2]
    rw [secretWrite, hfuel2]
    rw [writeAux_step_send _ _ _ _ _ _ _ hd2ne (by rw [hd2]; norm_num [DATA_MAX_SIZE])
        (by rw [hd2]; norm_num [DATA_MAX_SIZE]) rfl]
    simp only [DATA_MAX_SIZE, htake, hdrop, List.length_replicate,
      show (0 + 1024 : Nat) = 1024 from rfl, show (0 + 1 : Nat) = 1 from rfl]
    rw [hD]
  refine ⟨by rw [hrun3000], by rw [hrun3000], by rw [hrun2048], by rw [hrun2048], ?_⟩
  intro h
  have h2 := congrArg List.sum h
  rw [List.sum_replicate, List.sum_replicate] at h2
  norm_num at h2

/-- Read path when AEAD decryption fails: error return before
`recv_nonce.increment()`, state untouched, 1044 bytes consumed. -/
theorem secretRead_step_cryptofail (decryptFn : Nat → List Nat → Option (List Nat))
    (st : RecvState) (wire data : List Nat) (hbuf : st.recvBuffer.isEmpty = true)
    (hwire : ¬ wire.length < TAG_SIZE + TOTAL_FRAME_SIZE)
    (hdec : decryptFn st.recvNonce (wire.take (TAG_SIZE + TOTAL_FRAME_SIZE)) = none) :
    secretRead decryptFn st wire data
      = ⟨.error .cryptoError, data, st, wire.drop (TAG_SIZE + TOTAL_FRAME_SIZE)⟩ := by
  simp only [secretRead, hbuf, hwire, hdec, if_true, if_false]

/-- Read path when the decrypted frame declares a chunk length above
`DATA_MAX_SIZE`: framing error after the nonce increment, caller buffer
untouched. -/
theorem secretRead_step_framing (decryptFn : Nat → List Nat → Option (List Nat))
    (st : RecvState) (wire data frame : List Nat) (hbuf : st.recvBuffer.isEmpty = true)
    (hwire : ¬ wire.length < TAG_SIZE + TOTAL_FRAME_SIZE)
    (hdec : decryptFn st.recvNonce (wire.take (TAG_SIZE + TOTAL_FRAME_SIZE)) = some frame)
    (hlen : DATA_MAX_SIZE < u32OfLeBytes (frame.take DATA_LEN_SIZE)) :
    secretRead decryptFn st wire data
      = ⟨.error .framingError, data, ⟨st.recvBuffer, st.recvNonce + 1⟩,
         wire.drop (TAG_SIZE + TOTAL_FRAME_SIZE)⟩ := by
  simp only [secretRead, hbuf, hwire, hdec, hlen, if_true, if_false]

/-- Read path reaching `recv_buffer.copy_from_slice(&chunk[n..])` with a
length mismatch: the call panics. -/
theorem secretRead_step_stash_panic (decryptFn : Nat → List Nat → Option (List Nat))
    (st : RecvState) (wire data frame chunk : List Nat) (hbuf : st.recvBuffer.isEmpty = true)
    (hwire : ¬ wire.length < TAG_SIZE + TOTAL_FRAME_SIZE)
    (hdec : decryptFn st.recvNonce (wire.take (TAG_SIZE + TOTAL_FRAME_SIZE)) = some frame)
    (hlen : ¬ DATA_MAX_SIZE < u32OfLeBytes (frame.take DATA_LEN_SIZE))
    (hchunk : (frame.drop DATA_LEN_SIZE).take (u32OfLeBytes (frame.take DATA_LEN_SIZE)) = chunk)
    (hcopy : copyFromSlice st.recvBuffer (chunk.drop (min data.length chunk.length)) = none) :
    secretRead decryptFn st wire data
      = ⟨.error .panic, chunk.take (min data.length chunk.length)
          ++ data.drop (min data.length chunk.length),
         ⟨st.recvBuffer, st.recvNonce + 1⟩, wire.drop (TAG_SIZE + TOTAL_FRAME_SIZE)⟩ := by
  simp only [secretRead, hbuf, hwire, hdec, hlen, hchunk, hcopy, if_true, if_false]

/-- Successful read path: `n = min(len(buf), len(chunk))` bytes
delivered, `copy_from_slice` into the leftover buffer succeeded. -/
theorem secretRead_step_deliver (decryptFn : Nat → List Nat → Option (List Nat))
    (st : RecvState) (wire data frame chunk buf' : List Nat)
    (hbuf : st.recvBuffer.isEmpty = true)
    (hwire : ¬ wire.length < TAG_SIZE + TOTAL_FRAME_SIZE)
    (hdec : decryptFn st.recvNonce (wire.take (TAG_SIZE + TOTAL_FRAME_SIZE)) = some frame)
    (hlen : ¬ DATA_MAX_SIZE < u32OfLeBytes (frame.take DATA_LEN_SIZE))
    (hchunk : (frame.drop DATA_LEN_SIZE).take (u32OfLeBytes (frame.take DATA_LEN_SIZE)) = chunk)
    (hcopy : copyFromSlice st.recvBuffer (chunk.drop (min data.length chunk.length))
      = some buf') :
    secretRead decryptFn st wire data
      = ⟨.ok (min data.length chunk.length),
         chunk.take (min data.length chunk.length) ++ data.drop (min data.length chunk.length),
         ⟨buf', st.recvNonce + 1⟩, wire.drop (TAG_SIZE + TOTAL_FRAME_SIZE)⟩ := by
  simp only [secretRead, hbuf, hwire, hdec, hlen, hchunk, hcopy, if_true, if_false]

/-- Leftover path when `data.copy_from_slice(&recv_buffer[..n])` has a
length mismatch: the call panics. -/
theorem secretRead_leftover_panic (decryptFn : Nat → List Nat → Option (List Nat))
    (st : RecvState) (wire data : List Nat) (hbuf : st.recvBuffer.isEmpty = false)
    (hcopy : copyFromSlice data
      (st.recvBuffer.take (min data.length st.recvBuffer.length)) = none) :
    secretRead decryptFn st wire data = ⟨.error .panic, data, st, wire⟩ := by
  simp only [secretRead, hbuf, hcopy, Bool.false_eq_true, if_false]

/-- Leftover path when the full-buffer copy happens to have matching
lengths (`len(buf) = n`). -/
theorem secretRead_leftover_ok (decryptFn : Nat → List Nat → Option (List Nat))
    (st : RecvState) (wire data data' : List Nat) (hbuf : st.recvBuffer.isEmpty = false)
    (hcopy : copyFromSlice data
      (st.recvBuffer.take (min data.length st.recvBuffer.length)) = some data') :
    secretRead decryptFn st wire data
      = ⟨.ok (min data.length st.recvBuffer.length), data',
         ⟨st.recvBuffer.drop (min data.length st.recvBuffer.length), st.recvNonce⟩, wire⟩ := by
  simp only [secretRead, hbuf, hcopy, Bool.false_eq_true, if_false]

/-- C8: for every received frame that decrypts successfully and whose
4-byte little-endian length field exceeds `DATA_MAX_SIZE = 1024`,
`SecretConnection::read` returns a framing error and delivers no chunk
bytes to the caller (the caller's buffer is unchanged). -/
theorem C8_oversize_length_framing_error (decryptFn : Nat → List Nat → Option (List Nat))
    (st : RecvState) (wire data frame : List Nat)
    (hbuf : st.recvBuffer = [])
    (hwire : TAG_SIZE + TOTAL_FRAME_SIZE ≤ wire.length)
    (hdec : decryptFn st.recvNonce (wire.take (TAG_SIZE + TOTAL_FRAME_SIZE)) = some frame)
    (hlen : DATA_MAX_SIZE < u32OfLeBytes (frame.take DATA_LEN_SIZE)) :
    (secretRead decryptFn st wire data).res = .error .framingError ∧
    (secretRead decryptFn st wire data).data = data := by
  rw [secretRead_step_framing decryptFn st wire data frame (by rw [hbuf]; rfl)
    (Nat.not_lt.mpr hwire) hdec hlen]
  exact ⟨rfl, rfl⟩

/-- Witness for C8: a frame declaring chunk length 1025 is rejected
with a framing error and the caller's buffer is untouched. -/
theorem C8_framing_error_witness :
    (secretRead (fun _ _ => some (leBytesOfU32 1025 ++ List.replicate 1024 0))
      ⟨[], 0⟩ (List.replicate 1044 7) (List.replicate 8 9)).res = .error .framingError ∧
    (secretRead (fun _ _ => some (leBytesOfU32 1025 ++ List.replicate 1024 0))
      ⟨[], 0⟩ (List.replicate 1044 7) (List.replicate 8 9)).data = List.replicate 8 9 :=
  C8_oversize_length_framing_error _ _ _ _ _ rfl
    (by rw [List.length_replicate]; exact Nat.le_refl _) rfl (by decide)

/-- C9: when AEAD decryption of the received frame fails,
`SecretConnection::read` returns an error and leaves the connection
state unchanged: `recv_nonce` is not incremented, the leftover buffer
stays empty, the caller's buffer is untouched, and only the 1044 frame
bytes were consumed from the underlying transport. -/
theorem C9_decrypt_failure_leaves_state (decryptFn : Nat → List Nat → Option (List Nat))
    (st : RecvState) (wire data : List Nat)
    (hbuf : st.recvBuffer = [])
    (hwire : TAG_SIZE + TOTAL_FRAME_SIZE ≤ wire.length)
    (hdec : decryptFn st.recvNonce (wire.take (TAG_SIZE + TOTAL_FRAME_SIZE)) = none) :
    (secretRead decryptFn st wire data).res = .error .cryptoError ∧
    (secretRead decryptFn st wire data).st = st ∧
    (secretRead decryptFn st wire data).data = data ∧
    (secretRead decryptFn st wire data).wire = wire.drop (TAG_SIZE + TOTAL_FRAME_SIZE) := by
  rw [secretRead_step_cryptofail decryptFn st wire data (by rw [hbuf]; rfl)
    (Nat.not_lt.mpr hwire) hdec]
  exact ⟨rfl, rfl, rfl, rfl⟩

/-- Witness for C9: a failing decryption leaves the receive state at
`⟨[], 3⟩` and consumes exactly one sealed frame from the wire. -/
theorem C9_decrypt_failure_witness :
    (secretRead (fun _ _ => none) ⟨[], 3⟩ (List.replicate 1044 7) [9, 9]).res
      = .error .cryptoError ∧
    (secretRead (fun _ _ => none) ⟨[], 3⟩ (List.replicate 1044 7) [9, 9]).st = ⟨[], 3⟩ ∧
    (secretRead (fun _ _ => none) ⟨[], 3⟩ (List.replicate 1044 7) [9, 9]).data = [9, 9] ∧
    (secretRead (fun _ _ => none) ⟨[], 3⟩ (List.replicate 1044 7) [9, 9]).wire
      = (List.replicate 1044 7).drop (TAG_SIZE + TOTAL_FRAME_SIZE) :=
  C9_decrypt_failure_leaves_state _ _ _ _ rfl (by rw [List.length_replicate]; exact Nat.le_refl _) rfl

/-- C2 (the claim is RIGHT and the code is WRONG): with an empty
leftover buffer, a successfully decrypted chunk of length `L = 2` and a
1-byte caller buffer, the claim requires `read` to deliver 1 byte,
return 1, and stash the remaining byte in the leftover buffer; the code
instead panics, because `self.recv_buffer.copy_from_slice(&chunk[n..])`
copies a 1-byte slice into the still-empty (unresized) leftover vector.
This theorem evaluates the embedded code at that failing input. -/
theorem C2_read_stash_panic_eval :
    (secretRead (fun _ _ => some (leBytesOfU32 2 ++ ([10, 20] ++ List.replicate 1022 0)))
      ⟨[], 0⟩ (List.replicate 1044 7) [9]).res = .error .panic ∧
    (secretRead (fun _ _ => some (leBytesOfU32 2 ++ ([10, 20] ++ List.replicate 1022 0)))
      ⟨[], 0⟩ (List.replicate 1044 7) [9]).st.recvBuffer = [] := by
  rw [secretRead_step_stash_panic
    (fun _ _ => some (leBytesOfU32 2 ++ ([10, 20] ++ List.replicate 1022 0)))
    ⟨[], 0⟩ (List.replicate 1044 7) [9]
    (leBytesOfU32 2 ++ ([10, 20] ++ List.replicate 1022 0)) [10, 20] rfl
    (by rw [List.length_replicate]; decide) rfl (by decide) (by decide) (by decide)]
  exact ⟨rfl, rfl⟩

/-- C3 (the claim is RIGHT and the code is WRONG): with leftover buffer
`[7]` and a 2-byte caller buffer, the claim requires `read` to copy
`n = min(2, 1) = 1` byte and return 1 without touching the transport;
the code instead panics, because `data.copy_from_slice(&recv_buffer[..n])`
copies a 1-byte slice into the full 2-byte caller buffer.  This theorem
evaluates the embedded code at that failing input. -/
theorem C3_read_leftover_copy_panic_eval :
    (secretRead (fun _ _ => none) ⟨[7], 0⟩ [] [9, 9]).res = .error .panic ∧
    (secretRead (fun _ _ => none) ⟨[7], 0⟩ [] [9, 9]).st.recvBuffer = [7] ∧
    (secretRead (fun _ _ => none) ⟨[7], 0⟩ [] [9, 9]).data = [9, 9] := by
  rw [secretRead_leftover_panic (fun _ _ => none) ⟨[7], 0⟩ [] [9, 9] rfl (by decide)]
  exact ⟨rfl, rfl, rfl⟩

/-- `got_key` without a stored ephemeral key fails with
`ProtocolMisuse` and does not change the state. -/
theorem gotKey_none (dhFn pubFromPriv transcriptFn kdfFn signFn) (hasTranscript : Bool)
    (st : AwaitingEphKey) (rem : List Nat) (hk : st.localEphPrivkey = none) :
    gotKey dhFn pubFromPriv transcriptFn kdfFn signFn hasTranscript st rem
      = (.error .protocolMisuse, st) := by
  simp only [gotKey, hk]

/-- `got_key` with a stored ephemeral key always consumes it
(`Option::take`), whatever the outcome. -/
theorem gotKey_snd_eph_none (dhFn pubFromPriv transcriptFn kdfFn signFn)
    (hasTranscript : Bool) (st : AwaitingEphKey) (rem : List Nat) (k : List Nat)
    (hk : st.localEphPrivkey = some k) :
    (gotKey dhFn pubFromPriv transcriptFn kdfFn signFn hasTranscript st rem).2.localEphPrivkey
      = none := by
  simp only [gotKey, hk]
  split
  · rfl
  · split
    · rfl
    · rfl

/-- C6: for every `Handshake`, calling `got_key` a second time after a
first successful call fails with the `ProtocolMisuse` error kind: the
first call consumed `local_eph_privkey`, so the second hits the
`take()`-returned-`None` branch. -/
theorem C6_double_got_key_protocol_misuse (dhFn pubFromPriv transcriptFn kdfFn signFn) (hasTranscript : Bool)
    (st st2 : AwaitingEphKey) (rem1 rem2 : List Nat) (r : AwaitingAuthSig)
    (h : gotKey dhFn pubFromPriv transcriptFn kdfFn signFn hasTranscript st rem1
      = (.ok r, st2)) :
    (gotKey dhFn pubFromPriv transcriptFn kdfFn signFn hasTranscript st2 rem2).1
      = .error .protocolMisuse := by
  cases hk : st.localEphPrivkey with
  | none =>
    rw [gotKey_none dhFn pubFromPriv transcriptFn kdfFn signFn hasTranscript st rem1 hk] at h
    have h1 := congrArg Prod.fst h
    simp at h1
  | some k =>
    have h2 : st2.localEphPrivkey = none := by
      have h3 := gotKey_snd_eph_none dhFn pubFromPriv transcriptFn kdfFn signFn
        hasTranscript st rem1 k hk
      rw [h] at h3
      exact h3
    rw [gotKey_none dhFn pubFromPriv transcriptFn kdfFn signFn hasTranscript st2 rem2 h2]

/-- Witness for C6: a concrete successful first call followed by a
second call that fails with `ProtocolMisuse`. -/
theorem C6_double_got_key_witness :
    (gotKey (fun _ _ => List.replicate 32 1) (fun k => k) (fun _ _ _ => [])
      (fun _ _ => ⟨[], [], []⟩) (fun _ _ => some []) true ⟨[], none⟩ (List.replicate 32 4)).1
      = .error .protocolMisuse :=
  C6_double_got_key_protocol_misuse (fun _ _ => List.replicate 32 1) (fun k => k) (fun _ _ _ => [])
    (fun _ _ => ⟨[], [], []⟩) (fun _ _ => some []) true ⟨[], some [1]⟩ ⟨[], none⟩
    (List.replicate 32 4) (List.replicate 32 4) ⟨[], ⟨[], [], []⟩, [], [], []⟩ (by decide)

/-- C5 amended (the original claim is FALSE of the code): when the two
ephemeral public keys are byte-equal, `loc_is_least` is `true`, not
`false`: `sort32` does return `(remote, local)` because `remote > local`
fails, but `loc_is_least` compares the local key with the low element by
*byte equality*, and with byte-equal keys the local key always equals
the low element whichever argument was selected. -/
theorem C5_tie_break_loc_is_least_true (a : List Nat) : locIsLeast a a = true := by
  rw [locIsLeast, sort32, ite_self]
  exact beq_self_eq_true a

/-- Counterexample for C5 as stated: at a concrete pair of byte-equal
32-byte keys, `loc_is_least` is not `false`. -/
theorem C5_tie_break_counterexample :
    ¬ (locIsLeast (List.replicate 32 171) (List.replicate 32 171) = false) := by decide

/-- Witness for the amended C5 at a concrete byte-equal pair. -/
theorem C5_tie_break_witness : locIsLeast (List.replicate 32 5) (List.replicate 32 5) = true :=
  C5_tie_break_loc_is_least_true (List.replicate 32 5)

/-- C7: `got_signature` returns `CryptoError` whenever the message's
`pub_key` is absent (no `pub_key` or no `sum`), is a Secp256k1 key, or
holds undecodable Ed25519 bytes; whenever the signature bytes are
malformed; and whenever verification of the signature over the
version's challenge input fails; otherwise it returns the remote
Ed25519 public key. -/
theorem C7_got_signature_error_routing (pkFromBytes sigFromBytes : List Nat → Option (List Nat))
    (verifyFn : List Nat → List Nat → List Nat → Bool) (hasTranscript : Bool)
    (st : AwaitingAuthSig) :
    (∀ sig, gotSignature pkFromBytes sigFromBytes verifyFn hasTranscript st ⟨none, sig⟩
      = .error .cryptoError) ∧
    (∀ sig, gotSignature pkFromBytes sigFromBytes verifyFn hasTranscript st ⟨some ⟨none⟩, sig⟩
      = .error .cryptoError) ∧
    (∀ bs sig, gotSignature pkFromBytes sigFromBytes verifyFn hasTranscript st
      ⟨some ⟨some (.secp256k1 bs)⟩, sig⟩ = .error .cryptoError) ∧
    (∀ bs sig, pkFromBytes bs = none →
      gotSignature pkFromBytes sigFromBytes verifyFn hasTranscript st
        ⟨some ⟨some (.ed25519 bs)⟩, sig⟩ = .error .cryptoError) ∧
    (∀ bs sig pk, pkFromBytes bs = some pk → sigFromBytes sig = none →
      gotSignature pkFromBytes sigFromBytes verifyFn hasTranscript st
        ⟨some ⟨some (.ed25519 bs)⟩, sig⟩ = .error .cryptoError) ∧
    (∀ bs sig pk s, pkFromBytes bs = some pk → sigFromBytes sig = some s →
      verifyFn pk (if hasTranscript then st.scMac else st.kdf.challenge) s = false →
      gotSignature pkFromBytes sigFromBytes verifyFn hasTranscript st
        ⟨some ⟨some (.ed25519 bs)⟩, sig⟩ = .error .cryptoError) ∧
    (∀ bs sig pk s, pkFromBytes bs = some pk → sigFromBytes sig = some s →
      verifyFn pk (if hasTranscript then st.scMac else st.kdf.challenge) s = true →
      gotSignature pkFromBytes sigFromBytes verifyFn hasTranscript st
        ⟨some ⟨some (.ed25519 bs)⟩, sig⟩ = .ok pk) := by
  refine ⟨fun sig => rfl, fun sig => rfl, fun bs sig => rfl, ?_, ?_, ?_, ?_⟩
  · intro bs sig h1
    simp only [gotSignature, Option.bind, h1]
  · intro bs sig pk h1 h2
    simp only [gotSignature, Option.bind, h1, h2]
  · intro bs sig pk s h1 h2 h3
    cases hasTranscript with
    | false =>
      simp only [if_false, Bool.false_eq_true] at h3
      simp only [gotSignature, Option.bind, h1, h2, h3, Bool.false_eq_true, if_false]
    | true =>
      simp only [if_true] at h3
      simp only [gotSignature, Option.bind, h1, h2, h3, Bool.false_eq_true, if_false, if_true]
  · intro bs sig pk s h1 h2 h3
    cases hasTranscript with
    | false =>
      simp only [if_false, Bool.false_eq_true] at h3
      simp only [gotSignature, Option.bind, h1, h2, h3, if_true, Bool.false_eq_true, if_false]
    | true =>
      simp only [if_true] at h3
      simp only [gotSignature, Option.bind, h1, h2, h3, if_true]

/-- Witness for C7: all seven cases at concrete inputs, with
`PublicKey::from_bytes` and `Signature::try_from` instantiated by their
length checks (32 and 64 bytes) and a verifier accepting signatures
whose first byte is 1; the malformed-signature case uses the empty
signature. -/
theorem C7_got_signature_witness :
    (gotSignature (fun bs => if bs.length = 32 then some bs else none)
      (fun bs => if bs.length = 64 then some bs else none)
      (fun _ _ s => s.headD 0 == 1) true ⟨[5], ⟨[], [], [6]⟩, [], [], []⟩
      ⟨none, []⟩ = .error .cryptoError) ∧
    (gotSignature (fun bs => if bs.length = 32 then some bs else none)
      (fun bs => if bs.length = 64 then some bs else none)
      (fun _ _ s => s.headD 0 == 1) true ⟨[5], ⟨[], [], [6]⟩, [], [], []⟩
      ⟨some ⟨none⟩, []⟩ = .error .cryptoError) ∧
    (gotSignature (fun bs => if bs.length = 32 then some bs else none)
      (fun bs => if bs.length = 64 then some bs else none)
      (fun _ _ s => s.headD 0 == 1) true ⟨[5], ⟨[], [], [6]⟩, [], [], []⟩
      ⟨some ⟨some (.secp256k1 (List.replicate 33 1))⟩, []⟩ = .error .cryptoError) ∧
    (gotSignature (fun bs => if bs.length = 32 then some bs else none)
      (fun bs => if bs.length = 64 then some bs else none)
      (fun _ _ s => s.headD 0 == 1) true ⟨[5], ⟨[], [], [6]⟩, [], [], []⟩
      ⟨some ⟨some (.ed25519 [1])⟩, List.replicate 64 0⟩ = .error .cryptoError) ∧
    (gotSignature (fun bs => if bs.length = 32 then some bs else none)
      (fun bs => if bs.length = 64 then some bs else none)
      (fun _ _ s => s.headD 0 == 1) true ⟨[5], ⟨[], [], [6]⟩, [], [], []⟩
      ⟨some ⟨some (.ed25519 (List.replicate 32 2))⟩, []⟩ = .error .cryptoError) ∧
    (gotSignature (fun bs => if bs.length = 32 then some bs else none)
      (fun bs => if bs.length = 64 then some bs else none)
      (fun _ _ s => s.headD 0 == 1) true ⟨[5], ⟨[], [], [6]⟩, [], [], []⟩
      ⟨some ⟨some (.ed25519 (List.replicate 32 2))⟩, List.replicate 64 0⟩
        = .error .cryptoError) ∧
    (gotSignature (fun bs => if bs.length = 32 then some bs else none)
      (fun bs => if bs.length = 64 then some bs else none)
      (fun _ _ s => s.headD 0 == 1) true ⟨[5], ⟨[], [], [6]⟩, [], [], []⟩
      ⟨some ⟨some (.ed25519 (List.replicate 32 2))⟩, 1 :: List.replicate 63 0⟩
        = .ok (List.replicate 32 2)) :=
  ⟨(C7_got_signature_error_routing _ _ _ true _).1 [],
   (C7_got_signature_error_routing _ _ _ true _).2.1 [],
   (C7_got_signature_error_routing _ _ _ true _).2.2.1 (List.replicate 33 1) [],
   (C7_got_signature_error_routing _ _ _ true _).2.2.2.1 [1] (List.replicate 64 0) (by decide),
   (C7_got_signature_error_routing _ _ _ true _).2.2.2.2.1 (List.replicate 32 2) [] (List.replicate 32 2)
     (by decide) (by decide),
   (C7_got_signature_error_routing _ _ _ true _).2.2.2.2.2.1 (List.replicate 32 2) (List.replicate 64 0)
     (List.replicate 32 2) (List.replicate 64 0) (by decide) (by decide) (by decide),
   (C7_got_signature_error_routing _ _ _ true _).2.2.2.2.2.2 (List.replicate 32 2) (1 :: List.replicate 63 0)
     (List.replicate 32 2) (1 :: List.replicate 63 0) (by decide) (by decide) (by decide)⟩

/-- With `u = 0` the ladder invariant `z2 = 0 ∧ x3 = 0` is preserved
by every step (in both conditional-swap orientations). -/
theorem ladderStep_zero (kt : Bool) (s : MontState) (h : s.z2 = 0 ∧ s.x3 = 0) :
    (ladderStep 0 kt s).z2 = 0 ∧ (ladderStep 0 kt s).x3 = 0 := by
  obtain ⟨h2, h3⟩ := h
  simp only [ladderStep]
  cases hsw : (s.swap != kt) <;>
    simp only [hsw, if_true, if_false, Bool.false_eq_true] <;>
    rw [h2, h3] <;> constructor <;> ring

/-- The invariant carries through the whole ladder fold. -/
theorem foldl_ladder_zero (k : Nat) (l : List Nat) (s : MontState)
    (h : s.z2 = 0 ∧ s.x3 = 0) :
    (l.foldl (fun s t => ladderStep 0 (k.testBit t) s) s).z2 = 0 ∧
    (l.foldl (fun s t => ladderStep 0 (k.testBit t) s) s).x3 = 0 := by
  induction l generalizing s with
  | nil => exact h
  | cons a l ih => exact ih _ (ladderStep_zero _ _ h)

/-- Exponent zero yields one. -/
theorem powAux_exp_zero (f : Nat) (b : F25519) : powAux f b 0 = 1 := by
  cases f with
  | zero => rfl
  | succ f => simp [powAux]

/-- Base zero yields zero for every positive exponent below the fuel
bound. -/
theorem powAux_base_zero (f : Nat) : ∀ e : Nat, e ≠ 0 → e < 2 ^ f → powAux f 0 e = 0 := by
  induction f with
  | zero =>
    intro e he hlt
    exact absurd (Nat.lt_one_iff.mp hlt) he
  | succ f ih =>
    intro e he hlt
    simp only [powAux, if_neg he]
    by_cases hhalf : e / 2 = 0
    · rw [hhalf, powAux_exp_zero]
      have he1 : e = 1 := by omega
      rw [he1]
      norm_num
    · have hlt2 : e / 2 < 2 ^ f := by
        rw [Nat.div_lt_iff_lt_mul Nat.two_pos]
        rw [Nat.pow_succ] at hlt
        exact hlt
      rw [ih (e / 2) hhalf hlt2]
      by_cases hodd : e % 2 = 1 <;> simp [hodd]

/-- X25519 of any scalar with the zero u-coordinate is zero: at the
end of the ladder either `z2 = 0` (so the inversion yields zero) or
`x2 = 0`. -/
theorem x25519core_zero (k : Nat) : x25519core k 0 = 0 := by
  have hinv := foldl_ladder_zero k (List.range 255).reverse ⟨1, 0, (0 : Nat), 1, false⟩
    (by constructor <;> simp)
  simp only [x25519core, montLadder, Nat.cast_zero] at hinv ⊢
  obtain ⟨hz2, hx3⟩ := hinv
  cases hsw : ((List.range 255).reverse.foldl
      (fun s t => ladderStep 0 (k.testBit t) s) ⟨1, 0, 0, 1, false⟩).swap
  · simp only [hsw, if_false, Bool.false_eq_true, hz2]
    rw [powAux_base_zero 256 (p25519 - 2) (by norm_num [p25519]) (by norm_num [p25519])]
    rw [mul_zero, ZMod.val_zero]
  · simp only [hsw, if_true, hx3]
    rw [zero_mul, ZMod.val_zero]

/-- The all-zero 32-byte string decodes to zero. -/
theorem leBytesToNat_zero32 : leBytesToNat (List.replicate 32 0) = 0 := by decide

/-- The all-zero public key is a low-order point: X25519 of any
private key with it is the all-zero 32-byte string. -/
theorem x25519_zero_pubkey (kBytes : List Nat) :
    x25519 kBytes (List.replicate 32 0) = List.replicate 32 0 := by
  rw [x25519, decodeUCoordinate, leBytesToNat_zero32]
  rw [show (0 : Nat) % 2 ^ 255 = 0 from rfl, x25519core_zero]
  decide

/-- C4: whenever the Diffie-Hellman output for the remote ephemeral
public key is the all-zero 32-byte string, `got_key` fails with
`InvalidKey` (the constant-time `ct_eq` comparison against `[0u8; 32]`
is byte-string equality); in particular, with the Diffie-Hellman
function instantiated by X25519 itself, `got_key` on the all-zero
public key fails with `InvalidKey`. -/
theorem C4_zero_shared_secret_invalid_key (dhFn : List Nat → List Nat → List Nat)
    (pubFromPriv : List Nat → List Nat)
    (transcriptFn : List Nat → List Nat → List Nat → List Nat)
    (kdfFn : List Nat → Bool → KdfM) (signFn : List Nat → List Nat → Option (List Nat))
    (hasTranscript : Bool) (st : AwaitingEphKey) (priv rem : List Nat)
    (hk : st.localEphPrivkey = some priv)
    (hdh : dhFn priv rem = List.replicate 32 0) :
    (gotKey dhFn pubFromPriv transcriptFn kdfFn signFn hasTranscript
      st rem).1 = .error .invalidKey ∧
    (gotKey x25519 pubFromPriv transcriptFn kdfFn signFn hasTranscript
      st (List.replicate 32 0)).1 = .error .invalidKey := by
  constructor
  · simp only [gotKey, hk, hdh, beq_self_eq_true, if_true]
  · simp only [gotKey, hk, x25519_zero_pubkey, beq_self_eq_true, if_true]

/-- Witness for C4 at concrete inputs, with a constant-zero DH
function for the first conjunct; the second conjunct is `got_key` with
the real X25519 on the all-zero public key. -/
theorem C4_invalid_key_witness :
    (gotKey (fun _ _ => List.replicate 32 0) (fun _ => []) (fun _ _ _ => [])
      (fun _ _ => ⟨[], [], []⟩) (fun _ _ => some []) true
      ⟨[], some [2]⟩ [1]).1 = .error .invalidKey ∧
    (gotKey x25519 (fun _ => []) (fun _ _ _ => [])
      (fun _ _ => ⟨[], [], []⟩) (fun _ _ => some []) true
      ⟨[], some [2]⟩ (List.replicate 32 0)).1 = .error .invalidKey :=
  C4_zero_shared_secret_invalid_key (fun _ _ => List.replicate 32 0) (fun _ => []) (fun _ _ _ => [])
    (fun _ _ => ⟨[], [], []⟩) (fun _ _ => some []) true ⟨[], some [2]⟩ [2] [1] rfl rfl
